import Mathlib

/-!
Verification of the kaf event-log server (`kaf.go`).

The development shallowly embeds the storage engine of kaf:

* file contents are lists of bytes (`List Nat`, each byte a value < 256);
* the in-memory per-log state `msgLog` is the structure `MsgLog`
  (the open file handle is represented by passing the file's bytes to each
  operation; the handle and the file at the log's path coincide except where
  a definition explicitly models external deletion);
* `uint32` arithmetic of the source is modelled on `Nat` with an explicit
  `% 2^32` (`u32`) at each source site that performs 32-bit arithmetic;
  list lengths, indices and file offsets (Go `int`/`int64`) are plain `Nat`;
* fallible operations return `Except String` or carry an `Option String`
  error component, mirroring Go's `error` returns; the two `WriteAt` calls
  of `put_` can be made to fail through explicit injection flags, modelling
  file-system write errors.
-/

/-- Bytes are natural numbers; file contents are byte lists. -/
abbrev Byte := Nat

/-- `2^32`, the modulus of Go's `uint32` arithmetic. -/
def U32 : Nat := 4294967296

/-- Reduction modulo `2^32`, applied wherever the source computes in `uint32`. -/
def u32 (n : Nat) : Nat := n % U32

/-- go: `type msgOff struct` — in-RAM record descriptor `(num, offset)`. -/
structure MsgOff where
  num : Nat
  offset : Nat
deriving DecidableEq, Repr

/-- go: `type msg struct` — a decoded record: offset of its framing header,
header length (`start`), sequence number, payload size and payload bytes. -/
structure Msg where
  offset : Nat
  start : Nat
  num : Nat
  sz : Nat
  data : List Byte
deriving DecidableEq, Repr

/-- go: `type msgLog struct` — cached per-log state (the file handle is the
byte list passed separately to each operation). -/
@[ext]
structure MsgLog where
  size : Nat
  lastmsg : Nat
  msgOs : List MsgOff
  getCount : Nat
  putCount : Nat
  achCount : Nat
  errCount : Nat
deriving DecidableEq, Repr

/-- ASCII bytes of `DBHeader = "KAF_DB|v1|"`. -/
def dbHeaderPfxB : List Byte := [75, 65, 70, 95, 68, 66, 124, 118, 49, 124]

/-- ASCII bytes of `RecHeaderPfx = "\nKAF_MSG|"`. -/
def recHeaderPfxB : List Byte := [10, 75, 65, 70, 95, 77, 83, 71, 124]

/-- Decimal ASCII digits of `n` (what Go's `%d` / `FormatUint` prints). -/
def decDigits (n : Nat) : List Byte :=
  if n = 0 then [48] else (Nat.digits 10 n).reverse.map (· + 48)

/-- Is `b` the code of an ASCII decimal digit? -/
def isDigitB (b : Byte) : Bool := 48 ≤ b && b ≤ 57

/-- Numeric value of a digit string (Horner evaluation, most significant first). -/
def digitsVal (bs : List Byte) : Nat := bs.foldl (fun a b => a * 10 + (b - 48)) 0

/-- go: `strconv.ParseUint(s, 10, 32)` — all-digit, non-empty, value < 2^32. -/
def parseUint32 (bs : List Byte) : Option Nat :=
  if bs = [] then none
  else if bs.all isDigitB then
    if digitsVal bs < U32 then some (digitsVal bs) else none
  else none

/-- go: `createLogFile` — the DB header line `KAF_DB|v1|<lastmsg>` that a
freshly created log file contains. -/
def dbHeaderBytes (lastmsg : Nat) : List Byte := dbHeaderPfxB ++ decDigits lastmsg

/-- The frame header `\nKAF_MSG|<num>|<sz>\n` that `put_` writes. -/
def recHeaderBytes (num sz : Nat) : List Byte :=
  recHeaderPfxB ++ decDigits num ++ [124] ++ decDigits sz ++ [10]

/-- go: `f.WriteAt(bs, off)` — overwrite `bs` at offset `off`, zero-filling
the gap when `off` is past the end of the file. -/
def writeAt (f : List Byte) (off : Nat) (bs : List Byte) : List Byte :=
  let padded := f ++ List.replicate (off - f.length) 0
  padded.take off ++ bs ++ padded.drop (off + bs.length)

/-- go: `findMsgNdx` loop body — binary search with cursors `s`, `e`. -/
def fmnLoop (a : List MsgOff) (num : Nat) (s e : Nat) : Nat :=
  if h1 : s ≤ e then
    if num ≤ (a.getD s ⟨0, 0⟩).num then s
    else if (a.getD e ⟨0, 0⟩).num < num then a.length
    else
      if h2 : (s + e) / 2 = s then e
      else if (a.getD ((s + e) / 2) ⟨0, 0⟩).num < num then fmnLoop a num ((s + e) / 2) e
      else fmnLoop a num s ((s + e) / 2)
  else a.length
termination_by e - s
decreasing_by
  · omega
  · omega

/-- go: `findMsgNdx` — binary search for the first descriptor index whose
`num` is at least the target. -/
def findMsgNdx (a : List MsgOff) (num : Nat) : Nat :=
  if a.length = 0 then 0 else fmnLoop a num 0 (a.length - 1)

/-- go: the leading-newline loop of `readRecInfo` — number of leading `'\n'`
bytes of the window (stops at the first other byte or at the window's end). -/
def countNL : List Byte → Nat
  | [] => 0
  | b :: r => if b = 10 then countNL r + 1 else 0

/-- go: the divider-scanning loop of `readRecInfo`. Walks the window from
absolute position `i`, recording the positions of the first and second `'|'`
(error on a third) and stopping at the first `'\n'` (the header end). -/
def scanD : List Byte → Nat → Option Nat → Option Nat →
    Except String (Option Nat × Option Nat × Option Nat)
  | [], _, fd, sd => .ok (fd, sd, none)
  | b :: rest, i, fd, sd =>
    if b = 124 then
      match fd, sd with
      | none, _ => scanD rest (i + 1) (some i) sd
      | some _, none => scanD rest (i + 1) fd (some i)
      | some _, some _ => .error "invalid record header: extra divider found"
    else if b = 10 then .ok (fd, sd, some i)
    else scanD rest (i + 1) fd sd

/-- go: `readRecInfo(off, f)` — read a 32-byte window at `off` and decode the
record framing header `\nKAF_MSG|<num>|<sz>\n` found there. An all-newline
window yields the `num = 0` "no record" marker with `start` the window length.
When no divider is found but bytes were skipped, the Go slice expression
`hdr[pos.headerStart:0]` panics at runtime; the embedding returns that panic
as an error value. -/
def readRecInfo (off : Nat) (file : List Byte) : Except String Msg :=
  let hdr := (file.drop off).take 32
  let n := hdr.length
  if n = 0 then .error "read at offset failed"
  else
    let curr := countNL hdr
    if curr = 0 then .error "invalid record header start"
    else if curr = n then .ok ⟨off, n, 0, 0, []⟩
    else
      let headerStart := curr - 1
      match scanD (hdr.drop curr) curr none none with
      | .error e => .error e
      | .ok (fdO, sdO, heO) =>
        match fdO with
        | none =>
          if headerStart = 0 then .error "invalid record header prefix"
          else .error "runtime panic: slice bounds out of range"
        | some fd =>
          if (hdr.drop headerStart).take (fd + 1 - headerStart) ≠ recHeaderPfxB then
            .error "invalid record header prefix"
          else
            match sdO with
            | none => .error "invalid record header: no size"
            | some sd =>
              match heO with
              | none => .error "invalid record header: not terminated correctly"
              | some he =>
                match parseUint32 ((hdr.drop (fd + 1)).take (sd - (fd + 1))) with
                | none => .error "invalid record header message number"
                | some num =>
                  match parseUint32 ((hdr.drop (sd + 1)).take (he - (sd + 1))) with
                  | none => .error "invalid record header message size"
                  | some sz => .ok ⟨off, he + 1, num, sz, []⟩

/-- go: `readMsg(mo, f)` — decode the header at the descriptor's offset,
validate the stored number against the descriptor, then read the payload. -/
def readMsg (mo : MsgOff) (file : List Byte) : Except String Msg :=
  match readRecInfo mo.offset file with
  | .error e => .error e
  | .ok m =>
    if m.num = 0 then .error "no message data found at offset"
    else if mo.num ≠ m.num then .error "message number on disk incorrect"
    else if m.offset + m.start + m.sz ≤ file.length then
      .ok { m with data := (file.drop (m.offset + m.start)).take m.sz }
    else .error "read of message data failed"

/-- go: the header-terminator loop of `loadDBHeader` — starting from `e`,
repeatedly advance and stop when the next position reaches `n` or holds a
newline (so position `e + 1` is inspected first; position `e` itself is not). -/
def dbHdrEnd (hdr : List Byte) (n e : Nat) : Nat :=
  if e < n then
    if e + 1 = n then e + 1
    else if hdr.getD (e + 1) 0 = 10 then e + 1
    else dbHdrEnd hdr n (e + 1)
  else e
termination_by n - e

/-- go: `loadDBHeader` — read a zero-initialised 32-byte buffer from offset 0
(an EOF short read is tolerated, leaving trailing zeros), require the literal
`KAF_DB|v1|` prefix, then parse the start number up to the terminator.
Returns `(headerEnd, lastmsg)`. -/
def loadDBHeader (file : List Byte) : Except String (Nat × Nat) :=
  let n := min 32 file.length
  let hdr := file.take 32 ++ List.replicate (32 - n) 0
  if hdr.take 10 ≠ dbHeaderPfxB then .error "invalid db header"
  else
    let e := dbHdrEnd hdr n 10
    match parseUint32 ((hdr.drop 10).take (e - 10)) with
    | none => .error "bad last message number"
    | some lastmsg => .ok (e, lastmsg)

/-- go: the loop of `loadMsgOffsets` — step through the file decoding record
headers, collecting `(num, offset)` descriptors for records with `num > 0` and
requiring the numbers to increase. Returns the final `lastmsg` (Go mutates
`msglog.lastmsg` as it goes, so a partial value survives an error) and either
the descriptor list or the error. `msg.start` and `msg.sz` are `uint32`
fields, so both the advance `offset = msg.offset + int64(msg.start+msg.sz)`
and the `msg.sz+msg.start != 0` guard compute the sum in 32 bits; the
embedding wraps it with `u32` accordingly. The advance is written with
`offset` in place of `msg.offset`; `readRecInfo_ok_offset` below proves the
two are equal at every success site of `readRecInfo` (this also provides the
termination measure). When the wrapped sum is zero the Go loop never
advances and spins forever; the embedding marks that divergence with an
error value (no result is ever produced by the source there, so no theorem
may treat this branch as a successful scan). -/
def loadLoop (file : List Byte) (fsize offset lastmsg : Nat) (acc : List MsgOff) :
    Nat × Except String (List MsgOff) :=
  if h : offset < fsize then
    match readRecInfo offset file with
    | .error e => (lastmsg, .error e)
    | .ok m =>
      if 0 < m.num then
        if m.num ≤ lastmsg then (lastmsg, .error "message number did not increase")
        else if hp : u32 (m.start + m.sz) ≠ 0 then
          loadLoop file fsize (offset + u32 (m.start + m.sz)) m.num (acc ++ [⟨m.num, m.offset⟩])
        else (m.num, .error "nontermination: record frame of zero extent")
      else
        if hp : u32 (m.start + m.sz) ≠ 0 then
          loadLoop file fsize (offset + u32 (m.start + m.sz)) lastmsg acc
        else (lastmsg, .error "nontermination: record frame of zero extent")
  else (lastmsg, .ok acc)
termination_by fsize - offset

/-- go: `clearMsgLog` — reset the cached state (counters are kept; the file
handle close is implicit in the embedding). -/
def clearMsgLog (lg : MsgLog) : MsgLog := { lg with size := 0, lastmsg := 0, msgOs := [] }

/-- go: `loadLogFile` — clear the cache, stat the file, parse the DB header
and rebuild the descriptor list. On an error the partially rebuilt state is
kept, exactly as the Go code leaves `msglog`. -/
def loadLogFile (lg : MsgLog) (file : List Byte) : MsgLog × Option String :=
  let lg1 : MsgLog := { clearMsgLog lg with size := file.length }
  match loadDBHeader file with
  | .error e => (lg1, some e)
  | .ok (hdrEnd, lastmsg) =>
    let lg2 : MsgLog := { lg1 with lastmsg := lastmsg }
    match loadLoop file lg2.size hdrEnd lastmsg [] with
    | (lm, .error e) => ({ lg2 with lastmsg := lm }, some e)
    | (lm, .ok msgOs) => ({ lg2 with lastmsg := lm, msgOs := msgOs }, none)

/-- Re-scan of a file from scratch (what `loadLogFile` computes for a fresh
`msgLog`); used to state cache/disk coherence. -/
def scanFile (file : List Byte) : MsgLog × Option String :=
  loadLogFile ⟨0, 0, [], 0, 0, 0, 0⟩ file

/-- go: the read loop of `get_` — up to 5 records from descriptor index
`ndx`, breaking once the accumulated size reaches 3200 after an append. -/
def getLoop (file : List Byte) (msgOs : List MsgOff) (l ndx i tot : Nat)
    (msgs : List Msg) : Except String (List Msg) :=
  if h : i < 5 ∧ ndx + i < l then
    match readMsg (msgOs.getD (ndx + i) ⟨0, 0⟩) file with
    | .error e => .error e
    | .ok m =>
      if 3200 ≤ u32 (tot + m.sz) then .ok (msgs ++ [m])
      else getLoop file msgOs l ndx (i + 1) (u32 (tot + m.sz)) (msgs ++ [m])
  else .ok msgs
termination_by 5 - i

/-- go: `get_(num, msglog)` — bump `getCount`, locate the window start by
binary search and read the window; a read/validation error bumps `errCount`.
The source's get path performs no writes (only `ReadAt` through `readMsg`),
which the embedding reflects by taking the file as a read-only argument. -/
def get_ (num : Nat) (lg : MsgLog) (file : List Byte) :
    Except String (List Msg) × MsgLog :=
  let lg1 : MsgLog := { lg with getCount := u32 (lg.getCount + 1) }
  match getLoop file lg1.msgOs lg1.msgOs.length (findMsgNdx lg1.msgOs num) 0 0 [] with
  | .error e => (.error e, { lg1 with errCount := u32 (lg1.errCount + 1) })
  | .ok msgs => (.ok msgs, lg1)

/-- Result of `put_`: the assigned number and the error, if any. -/
structure PutResult where
  num : Nat
  err : Option String
deriving DecidableEq, Repr

/-- go: the write half of `put_` (after the refresh check): format the record
header, write header then payload at `off`, update the cache. `failHdr` and
`failData` inject failures of the two `WriteAt` calls (a failed write leaves
the file unchanged; a failure of the payload write leaves the already-written
header in the file). `fs = none` models a file missing at the log's path:
the writes then go to the still-open unlinked inode and the path stays empty. -/
def putWrite (failHdr failData : Bool) (data : List Byte) (lg : MsgLog)
    (fs : Option (List Byte)) (off : Nat) : PutResult × MsgLog × Option (List Byte) :=
  let num := u32 (lg.lastmsg + 1)
  let hdr := recHeaderBytes num data.length
  if failHdr then (⟨0, some "write failed"⟩, { lg with errCount := u32 (lg.errCount + 1) }, fs)
  else
    let fs1 := fs.map (fun f => writeAt f off hdr)
    if failData then (⟨0, some "write failed"⟩, { lg with errCount := u32 (lg.errCount + 1) }, fs1)
    else
      (⟨num, none⟩,
       { lg with msgOs := lg.msgOs ++ [⟨num, off⟩], lastmsg := num,
                 size := lg.size + data.length + hdr.length },
       fs1.map (fun f => writeAt f (off + hdr.length) data))

/-- go: `put_(data, msglog)` — bump `putCount`, stat the still-open handle
(`staleSize` is the size that stat reports when the file at the path has been
deleted externally; while the file exists the handle and the path coincide
and stat reports the file's length). If the cached size disagrees, recreate
the file when missing and re-scan it. The append offset `off := inf.Size()`
is the stat result taken *before* any refresh, exactly as in the source. -/
def put_ (failHdr failData : Bool) (data : List Byte) (lg : MsgLog)
    (fs : Option (List Byte)) (staleSize : Nat) : PutResult × MsgLog × Option (List Byte) :=
  let lg1 : MsgLog := { lg with putCount := u32 (lg.putCount + 1) }
  let infSize := match fs with | some f => f.length | none => staleSize
  if lg1.size ≠ infSize then
    let f := match fs with | none => dbHeaderBytes 0 | some f0 => f0
    match loadLogFile lg1 f with
    | (lg2, some e) => (⟨0, some e⟩, lg2, some f)
    | (lg2, none) => putWrite failHdr failData data lg2 (some f) infSize
  else putWrite failHdr failData data lg1 fs infSize

/-- The cache state after the size-drift refresh phase of `put_`, before its
write ever runs: the bumped `putCount`, and — when the cached size disagrees
with the stat — the state rebuilt by re-scanning the (possibly recreated)
file, exactly as the first half of `put_` computes it. Claim C6 states that a
failed write leaves the cache at this state. -/
def putRefresh (lg : MsgLog) (fs : Option (List Byte)) (staleSize : Nat) : MsgLog :=
  let lg1 : MsgLog := { lg with putCount := u32 (lg.putCount + 1) }
  let infSize := match fs with | some f => f.length | none => staleSize
  if lg1.size ≠ infSize then
    let f := match fs with | none => dbHeaderBytes 0 | some f0 => f0
    (loadLogFile lg1 f).1
  else lg1

/-- The frame a record occupies on disk: framing header followed by payload. -/
def frameBytes (num : Nat) (data : List Byte) : List Byte :=
  recHeaderBytes num data.length ++ data

/-- Concatenated frames of a record list (`(num, payload)` pairs). -/
def recsBytes : List (Nat × List Byte) → List Byte
  | [] => []
  | (n, d) :: t => frameBytes n d ++ recsBytes t

/-- Descriptors of a record list laid out from byte offset `off`. -/
def recsOffs (off : Nat) : List (Nat × List Byte) → List MsgOff
  | [] => []
  | (n, d) :: t => ⟨n, off⟩ :: recsOffs (off + (frameBytes n d).length) t

/-- A full log file: DB header with start number, then the record frames. -/
def encodeLog (start : Nat) (recs : List (Nat × List Byte)) : List Byte :=
  dbHeaderBytes start ++ recsBytes recs

/-- The `lastmsg` value of a log holding `recs` after a header start number. -/
def lastNum (start : Nat) (recs : List (Nat × List Byte)) : Nat :=
  (recs.map Prod.fst).getLastD start

/-- Well-formedness of an abstract log: the start number and every record
number fit in 32 bits, numbers strictly increase from the start number, and
every payload length fits in 32 bits (so its printed size re-parses). -/
def GoodRecs (start : Nat) (recs : List (Nat × List Byte)) : Prop :=
  start < U32 ∧ List.Chain (· < ·) start (recs.map Prod.fst) ∧
    ∀ r ∈ recs, r.1 < U32 ∧ r.2.length < U32

/-- The cached `msgLog` state that corresponds to the file
`encodeLog start recs` (counter values are free). -/
def mkLog (start : Nat) (recs : List (Nat × List Byte)) (g p a e : Nat) : MsgLog :=
  { size := (encodeLog start recs).length
    lastmsg := lastNum start recs
    msgOs := recsOffs (dbHeaderBytes start).length recs
    getCount := g, putCount := p, achCount := a, errCount := e }

/-- Outcome of one `logReq` processed by `logsGo`. -/
inductive LookupOutcome
  | existing
  | loaded
  | noLog
deriving DecidableEq, Repr

/-- go: the `logReq` branch of `logsGo` — an already-registered name returns
its actor; otherwise the file is created when `create` is set and absent, and
the log is loaded if the file now exists; with no file and `create = false`
the reply carries no actor and no error. File creation and log loading are
modelled as succeeding. -/
def lookupOrCreate (registered : List String) (name : String) (create fileExists : Bool) :
    LookupOutcome :=
  if name ∈ registered then .existing
  else if fileExists || create then .loaded
  else .noLog

/-- ASCII bytes of a string literal (all names used here are ASCII). -/
def strB (s : String) : List Byte := s.data.map (fun c => c.toNat)

/-- go: `kafFormat` — response header `KAF_MSGS|v1|<count>` followed by each
record's framing header and payload. -/
def kafFormatBytes (msgs : List Msg) : List Byte :=
  strB "KAF_MSGS|v1|" ++ decDigits msgs.length ++
    (msgs.map (fun m => recHeaderBytes m.num m.sz ++ m.data)).flatten

/-- The parts of the HTTP get response claim C8 speaks about. -/
structure HttpGetResp where
  lastMsgSent : Option Nat
  body : List Byte
deriving DecidableEq, Repr

/-- go: tail of the `get` handler — the `X-Kaf-LastMsgSent` header is set to
the last returned record's number only when the window is non-empty, and the
body is the kaf-format framing of the window. -/
def mkGetResp (msgs : List Msg) : HttpGetResp :=
  { lastMsgSent :=
      if 0 < msgs.length then some ((msgs.getLastD ⟨0, 0, 0, 0, []⟩).num) else none
    body := kafFormatBytes msgs }

/-!  Stats loop (`statsGo` / `statsJSON`), as needed by claim C9. -/

/-- The per-log counter snapshot the stats loop works with. -/
structure LogStats where
  name : String
  lastmsg : Nat
  gets : Nat
  puts : Nat
  errs : Nat
deriving DecidableEq, Repr

/-- go: `hasActivity` — any gets or puts (32-bit sum, as in the source), or
any errors. -/
def hasActivity (s : LogStats) : Bool :=
  decide (0 < u32 (s.gets + s.puts)) || decide (0 < s.errs)

/-- The `{"name":..,"last":..` prefix common to all three entry shapes. -/
def entryCommonB (s : LogStats) : List Byte :=
  strB "\x7b\"name\":\"" ++ strB s.name ++ strB "\",\"last\":" ++ decDigits s.lastmsg

/-- Entry shape used when the log had errors. -/
def entryErrB (s : LogStats) : List Byte :=
  entryCommonB s ++ strB ",\"gets\":" ++ decDigits s.gets ++ strB ",\"puts\":" ++
    decDigits s.puts ++ strB ",\"errs\":" ++ decDigits s.errs ++ strB "\x7d"

/-- Entry shape used when the log had activity but no errors. -/
def entryActB (s : LogStats) : List Byte :=
  entryCommonB s ++ strB ",\"gets\":" ++ decDigits s.gets ++ strB ",\"puts\":" ++
    decDigits s.puts ++ strB "\x7d"

/-- The two-field entry shape `{"name":..,"last":..}` of the third branch. -/
def entryPlainB (s : LogStats) : List Byte :=
  entryCommonB s ++ strB "\x7d"

/-- go: the per-entry branch of `statsJSON`. -/
def statsEntryB (s : LogStats) : List Byte :=
  if 0 < s.errs then entryErrB s
  else if hasActivity s then entryActB s
  else entryPlainB s

/-- go: comma separation of `statsJSON` (a comma after every entry but the
last). -/
def joinEntries : List (List Byte) → List Byte
  | [] => []
  | [x] => x
  | x :: xs => x ++ [44] ++ joinEntries xs

/-- go: `statsJSON` — the full snapshot object; the already-rendered
timestamps are passed in as bytes (wall-clock time is outside the model). -/
def statsJSONBytes (allstats : List LogStats) (startB endB : List Byte)
    (statno : Nat) : List Byte :=
  strB "\x7b\"start\":\"" ++ startB ++ strB "\",\"end\":\"" ++ endB ++
    strB "\",\"statno\":" ++ decDigits statno ++ strB ",\"logs\":[" ++
    joinEntries (allstats.map statsEntryB) ++ strB "]\x7d"

/-- go: one tick of `statsGo` — collect the stats of all logs, keep those of
non-`_kaf` logs with activity, and append a snapshot to `_kaf` only when that
list is non-empty (`none` = nothing is appended). -/
def statsTick (all : List LogStats) (startB endB : List Byte) (statno : Nat) :
    Option (List Byte) :=
  let allstats := all.filter (fun s => s.name != "_kaf" && hasActivity s)
  if allstats.length = 0 then none
  else some (statsJSONBytes allstats startB endB statno)

/-!  Concrete test vectors used in closed statements. -/

/-- The file produced when `put_` writes at a stale offset 30 into a freshly
recreated 11-byte file: the DB header, a hole of 19 zero bytes, then the
record frame for message 1 with payload `hi`. -/
def C5file : List Byte :=
  [75, 65, 70, 95, 68, 66, 124, 118, 49, 124, 48] ++ List.replicate 19 0 ++
    [10, 75, 65, 70, 95, 77, 83, 71, 124, 49, 124, 50, 10] ++ [104, 105]

/-!  Theorems.  First: facts about decimal printing and parsing. -/

theorem decDigits_ne_nil (n : Nat) : decDigits n ≠ [] := by
  unfold decDigits
  split
  · simp
  · simp [Nat.digits_ne_nil_iff_ne_zero, *]

theorem decDigits_mem_range {n b : Nat} (hb : b ∈ decDigits n) : 48 ≤ b ∧ b ≤ 57 := by
  unfold decDigits at hb
  split at hb
  · simp at hb
    omega
  · simp only [List.mem_map, List.mem_reverse] at hb
    obtain ⟨d, hd, rfl⟩ := hb
    have := Nat.digits_lt_base (by norm_num) hd
    omega

theorem decDigits_isDigit {n b : Nat} (hb : b ∈ decDigits n) : isDigitB b = true := by
  have := decDigits_mem_range hb
  simp only [isDigitB, Bool.and_eq_true, decide_eq_true_eq]
  exact this

theorem decDigits_ne_nl {n b : Nat} (hb : b ∈ decDigits n) : b ≠ 10 := by
  have := decDigits_mem_range hb
  omega

theorem decDigits_ne_pipe {n b : Nat} (hb : b ∈ decDigits n) : b ≠ 124 := by
  have := decDigits_mem_range hb
  omega

theorem foldr_horner (l : List Nat) :
    l.foldr (fun d a => a * 10 + d) 0 = Nat.ofDigits 10 l := by
  induction l with
  | nil => simp [Nat.ofDigits]
  | cons d t ih => simp [Nat.ofDigits, ih]; ring

theorem digitsVal_decDigits (n : Nat) : digitsVal (decDigits n) = n := by
  unfold digitsVal decDigits
  split
  · simp_all [List.foldl]
  · rw [List.foldl_map, List.foldl_reverse]
    have : ∀ (l : List Nat),
        l.foldr (fun b acc => acc * 10 + (b + 48 - 48)) 0 =
          l.foldr (fun d a => a * 10 + d) 0 := by
      intro l
      induction l with
      | nil => rfl
      | cons d t ih => simp [ih]
    rw [this, foldr_horner, Nat.ofDigits_digits]

theorem parseUint32_decDigits {n : Nat} (hn : n < U32) :
    parseUint32 (decDigits n) = some n := by
  unfold parseUint32
  rw [if_neg (decDigits_ne_nil n)]
  have hall : (decDigits n).all isDigitB = true := by
    rw [List.all_eq_true]
    intro b hb
    exact decDigits_isDigit hb
  rw [hall, digitsVal_decDigits, if_pos hn]
  simp

theorem decDigits_length_le {n : Nat} (hn : n < U32) : (decDigits n).length ≤ 10 := by
  unfold decDigits
  split
  · simp
  · simp only [List.length_map, List.length_reverse]
    rw [Nat.digits_len 10 n (by norm_num) (by assumption)]
    have hlog : Nat.log 10 n < 10 := by
      apply Nat.log_lt_of_lt_pow (by assumption)
      calc n < U32 := hn
        _ < 10 ^ 10 := by norm_num [U32]
    omega

theorem scanD_cons_skip {b : Byte} (rest : List Byte) (i : Nat) (fd sd : Option Nat)
    (h124 : b ≠ 124) (h10 : b ≠ 10) :
    scanD (b :: rest) i fd sd = scanD rest (i + 1) fd sd := by
  simp [scanD, h124, h10]

theorem scanD_seg_skip : ∀ (seg : List Byte), (∀ b ∈ seg, b ≠ 124 ∧ b ≠ 10) →
    ∀ (rest : List Byte) (i : Nat) (fd sd : Option Nat),
    scanD (seg ++ rest) i fd sd = scanD rest (i + seg.length) fd sd
  | [], _, rest, i, fd, sd => by simp
  | b :: t, h, rest, i, fd, sd => by
    obtain ⟨h1, h2⟩ := h b (by simp)
    rw [List.cons_append, scanD_cons_skip _ _ _ _ h1 h2,
      scanD_seg_skip t (fun x hx => h x (by simp [hx])) rest (i + 1) fd sd]
    congr 1
    simp
    omega

theorem scanD_pipe_none (rest : List Byte) (i : Nat) (sd : Option Nat) :
    scanD (124 :: rest) i none sd = scanD rest (i + 1) (some i) sd := by
  simp [scanD]

theorem scanD_pipe_second (rest : List Byte) (i fd : Nat) :
    scanD (124 :: rest) i (some fd) none = scanD rest (i + 1) (some fd) (some i) := by
  simp [scanD]

theorem scanD_nl (rest : List Byte) (i : Nat) (fd sd : Option Nat) :
    scanD (10 :: rest) i fd sd = .ok (fd, sd, some i) := by
  simp [scanD]

-- the header-bytes scan, assembled
theorem scanD_header (num sz : Nat) (J : List Byte) :
    scanD (([75,65,70,95,77,83,71] ++ (124 :: (decDigits num ++ (124 :: (decDigits sz ++ (10 :: J)))))) : List Byte) 1 none none =
      .ok (some 8, some (9 + (decDigits num).length),
        some (10 + (decDigits num).length + (decDigits sz).length)) := by
  rw [scanD_seg_skip [75,65,70,95,77,83,71] (by decide)]
  norm_num
  rw [scanD_pipe_none]
  rw [scanD_seg_skip (decDigits num) (fun b hb => ⟨decDigits_ne_pipe hb, decDigits_ne_nl hb⟩)]
  rw [show (8 : Nat) + 1 + (decDigits num).length = 9 + (decDigits num).length by omega]  -- placeholder
  rw [scanD_pipe_second]
  rw [scanD_seg_skip (decDigits sz) (fun b hb => ⟨decDigits_ne_pipe hb, decDigits_ne_nl hb⟩)]
  rw [scanD_nl]
  norm_num
  omega

theorem recHeaderBytes_len (num sz : Nat) :
    (recHeaderBytes num sz).length = 11 + (decDigits num).length + (decDigits sz).length := by
  simp [recHeaderBytes, recHeaderPfxB]
  omega

theorem decDigits_len_pos (n : Nat) : 1 ≤ (decDigits n).length := by
  have := decDigits_ne_nil n
  cases h : decDigits n with
  | nil => exact absurd h this
  | cons a t => simp

theorem readRecInfo_frame (pre d rest : List Byte) (num : Nat)
    (hn : num < U32) (hd : d.length < U32) :
    readRecInfo pre.length (pre ++ (recHeaderBytes num d.length ++ (d ++ rest))) =
      .ok ⟨pre.length, (recHeaderBytes num d.length).length, num, d.length, []⟩ := by
  have hln1 := decDigits_len_pos num
  have hln10 := decDigits_length_le hn
  have hls1 := decDigits_len_pos d.length
  have hls10 := decDigits_length_le hd
  have hHlen := recHeaderBytes_len num d.length
  -- the 32-byte window
  have hdrop : (pre ++ (recHeaderBytes num d.length ++ (d ++ rest))).drop pre.length
      = recHeaderBytes num d.length ++ (d ++ rest) := List.drop_left _ _
  have htake : (recHeaderBytes num d.length ++ (d ++ rest)).take 32
      = recHeaderBytes num d.length ++ (d ++ rest).take (32 - (recHeaderBytes num d.length).length) := by
    rw [List.take_append_eq_append_take, List.take_of_length_le (by omega)]
  set J := (d ++ rest).take (32 - (recHeaderBytes num d.length).length) with hJ
  have hwin : ((pre ++ (recHeaderBytes num d.length ++ (d ++ rest))).drop pre.length).take 32
      = recHeaderBytes num d.length ++ J := by rw [hdrop, htake]
  -- window length
  have hwlen : (recHeaderBytes num d.length ++ J).length
      = (recHeaderBytes num d.length).length + J.length := by simp
  unfold readRecInfo
  simp only [hwin]
  rw [if_neg (by omega)]
  -- countNL of the window is 1
  have hcnl : countNL (recHeaderBytes num d.length ++ J) = 1 := by
    simp [recHeaderBytes, recHeaderPfxB, countNL]
  rw [hcnl]
  rw [if_neg (by omega)]
  rw [if_neg (by omega)]
  have hdrop1 : List.drop 1 (recHeaderBytes num d.length ++ J)
      = [75,65,70,95,77,83,71] ++ (124 :: (decDigits num ++ (124 :: (decDigits d.length ++ (10 :: J))))) := by
    simp [recHeaderBytes, recHeaderPfxB]
  rw [hdrop1, scanD_header]
  have hW : recHeaderBytes num d.length ++ J
      = recHeaderPfxB ++ (decDigits num ++ (124 :: (decDigits d.length ++ (10 :: J)))) := by
    simp [recHeaderBytes]
  have htake9 : List.take (8 + 1 - (1 - 1)) (List.drop (1 - 1) (recHeaderBytes num d.length ++ J))
      = recHeaderPfxB := by
    rw [hW]
    norm_num
    rw [List.take_append_eq_append_take, List.take_of_length_le (by simp [recHeaderPfxB])]
    simp [recHeaderPfxB]
  have hnumslice : List.take (9 + (decDigits num).length - (8 + 1))
      (List.drop (8 + 1) (recHeaderBytes num d.length ++ J)) = decDigits num := by
    rw [hW]
    have h9 : (recHeaderPfxB : List Byte).length = 9 := by rfl
    rw [show (8 : Nat) + 1 = 9 by rfl, List.drop_left' h9]
    rw [List.take_append_eq_append_take, List.take_of_length_le (by omega)]
    simp
  have hszslice : List.take (10 + (decDigits num).length + (decDigits d.length).length - (9 + (decDigits num).length + 1))
      (List.drop (9 + (decDigits num).length + 1) (recHeaderBytes num d.length ++ J)) = decDigits d.length := by
    have hW2 : recHeaderBytes num d.length ++ J
        = (recHeaderPfxB ++ decDigits num ++ [124]) ++ (decDigits d.length ++ (10 :: J)) := by
      simp [recHeaderBytes]
    rw [hW2]
    have hlen2 : ((recHeaderPfxB ++ decDigits num ++ [124]) : List Byte).length
        = 9 + (decDigits num).length + 1 := by
      simp [recHeaderPfxB]
      omega
    rw [List.drop_left' hlen2]
    rw [List.take_append_eq_append_take, List.take_of_length_le (by omega)]
    simp
    omega
  dsimp only
  rw [htake9]
  rw [if_neg (by simp)]
  rw [hnumslice, parseUint32_decDigits hn]
  rw [hszslice, parseUint32_decDigits hd]
  dsimp only
  simp only [Except.ok.injEq, Msg.mk.injEq, and_true, true_and]
  omega

theorem readRecInfo_ok_offset {off : Nat} {file : List Byte} {m : Msg}
    (h : readRecInfo off file = .ok m) : m.offset = off := by
  simp only [readRecInfo] at h
  repeat' split at h
  all_goals try (injection h with h2; subst h2)
  all_goals try (cases h)
  all_goals rfl

theorem readRecInfo_ok_start_pos {off : Nat} {file : List Byte} {m : Msg}
    (h : readRecInfo off file = .ok m) : 0 < m.start := by
  simp only [readRecInfo] at h
  repeat' split at h
  all_goals try (injection h with h2; subst h2)
  all_goals try (cases h)
  all_goals dsimp only
  all_goals omega

theorem dbHdrEnd_stop (hdr : List Byte) (n stop : Nat) :
    ∀ e, e < stop → stop ≤ n →
    (∀ j, e < j → j < stop → hdr.getD j 0 ≠ 10) →
    (stop = n ∨ hdr.getD stop 0 = 10) →
    dbHdrEnd hdr n e = stop
  | e, he, hn, hnl, hstop => by
    rw [dbHdrEnd, if_pos (by omega)]
    by_cases h1 : e + 1 = n
    · rw [if_pos h1]
      omega
    · rw [if_neg h1]
      by_cases h2 : hdr.getD (e + 1) 0 = 10
      · rw [if_pos h2]
        have : ¬(e + 1 < stop) := fun hlt => hnl (e + 1) (by omega) hlt h2
        omega
      · rw [if_neg h2]
        have hne : stop ≠ e + 1 := by
          intro hq
          rcases hstop with h | h
          · omega
          · rw [hq] at h; exact h2 h
        exact dbHdrEnd_stop hdr n stop (e + 1) (by omega) hn
          (fun j hj1 hj2 => hnl j (by omega) hj2) hstop
termination_by e => stop - e

theorem dbHeaderBytes_len (start : Nat) :
    (dbHeaderBytes start).length = 10 + (decDigits start).length := by
  simp [dbHeaderBytes, dbHeaderPfxB]
  omega

theorem loadDBHeader_encode (start : Nat) (tail : List Byte) (hs : start < U32)
    (htail : tail = [] ∨ tail.getD 0 0 = 10) :
    loadDBHeader (dbHeaderBytes start ++ tail) =
      .ok ((dbHeaderBytes start).length, start) := by
  have hls1 := decDigits_len_pos start
  have hls10 := decDigits_length_le hs
  have hdblen := dbHeaderBytes_len start
  set ds := decDigits start with hds
  set file := dbHeaderBytes start ++ tail with hfile
  have hflen : file.length = 10 + ds.length + tail.length := by
    simp [hfile, hdblen]
  set n := min 32 file.length with hn
  have hn32 : n ≤ 32 := by omega
  have hnge : 10 + ds.length ≤ n := by omega
  -- the zero-padded 32-byte buffer
  have hpfxlen : (dbHeaderPfxB : List Byte).length = 10 := rfl
  set hdr := file.take 32 ++ List.replicate (32 - n) 0 with hhdr
  have hdecomp : hdr = dbHeaderPfxB ++ (ds ++ (tail.take (32 - (10 + ds.length)) ++ List.replicate (32 - n) 0)) := by
    rw [hhdr, hfile]
    rw [show dbHeaderBytes start ++ tail = dbHeaderPfxB ++ (ds ++ tail) by
      simp [dbHeaderBytes, hds]]
    rw [List.take_append_eq_append_take, List.take_of_length_le (by rw [hpfxlen]; omega)]
    rw [List.take_append_eq_append_take, List.take_of_length_le (by rw [hpfxlen]; omega)]
    simp [dbHeaderPfxB]
    omega
  simp only [loadDBHeader]
  rw [← hn, ← hhdr]
  have htake10 : hdr.take 10 = dbHeaderPfxB := by
    rw [hdecomp, List.take_left' hpfxlen]
  rw [htake10, if_neg (by simp)]
  have hstop : dbHdrEnd hdr n 10 = 10 + ds.length := by
    apply dbHdrEnd_stop hdr n (10 + ds.length) 10 (by omega) hnge
    · intro j hj1 hj2
      rw [hdecomp, List.getD_append_right _ _ _ _ (by omega)]
      rw [List.getD_append _ _ _ _ (by omega)]
      have hmem : ds.getD (j - 10) 0 ∈ ds := by
        rw [List.getD_eq_getElem _ _ (by omega)]
        exact List.getElem_mem _
      exact decDigits_ne_nl hmem
    · rcases htail with h | h
      · left
        rw [hn, hfile, h]
        simp [hdblen]
        omega
      · right
        rw [hdecomp, List.getD_append_right _ _ _ _ (by rw [hpfxlen]; omega)]
        rw [List.getD_append_right _ _ _ _ (by rw [hpfxlen]; omega)]
        simp only [hpfxlen]
        rw [show 10 + ds.length - 10 - ds.length = 0 by omega]
        cases tail with
        | nil => simp_all
        | cons a t =>
          have ha : a = 10 := by simpa using h
          rw [List.getD_append _ _ _ _ (by
            rw [show 32 - (10 + ds.length) = 31 - (10 + ds.length) + 1 by omega,
              List.take_succ_cons]
            simp)]
          rw [show 32 - (10 + ds.length) = 31 - (10 + ds.length) + 1 by omega,
            List.take_succ_cons]
          simp [ha]
  rw [hstop]
  have hslice : (hdr.drop 10).take (10 + ds.length - 10) = ds := by
    rw [hdecomp, List.drop_left' hpfxlen]
    rw [show 10 + ds.length - 10 = ds.length by omega]
    rw [List.take_left]
  rw [hslice, parseUint32_decDigits hs, hdblen]

theorem frameBytes_len (n : Nat) (d : List Byte) :
    (frameBytes n d).length = (recHeaderBytes n d.length).length + d.length := by
  simp [frameBytes]

theorem recHeaderBytes_len_ge (num sz : Nat) : 13 ≤ (recHeaderBytes num sz).length := by
  have h1 := decDigits_len_pos num
  have h2 := decDigits_len_pos sz
  have := recHeaderBytes_len num sz
  omega

theorem frameBytes_len_le (n : Nat) (d : List Byte) (hn : n < U32) (hd : d.length < U32) :
    (frameBytes n d).length ≤ 31 + d.length := by
  have h1 := recHeaderBytes_len n d.length
  have h2 := decDigits_length_le hn
  have h3 := decDigits_length_le hd
  rw [frameBytes_len]
  omega

theorem frameBytes_small_lt (n : Nat) (d : List Byte) (hn : n < U32)
    (hd : d.length + 31 < U32) : (frameBytes n d).length < U32 := by
  have h := frameBytes_len_le n d hn (by omega)
  omega

theorem getLastD_cons' (a : Nat) (l : List Nat) (dflt : Nat) :
    (a :: l).getLastD dflt = l.getLastD a := by
  cases l <;> simp [List.getLastD]

theorem loadLoop_frames :
    ∀ (recs : List (Nat × List Byte)) (pre : List Byte) (lastmsg : Nat) (acc : List MsgOff),
    List.Chain (· < ·) lastmsg (recs.map Prod.fst) →
    (∀ r ∈ recs, r.1 < U32 ∧ r.2.length < U32) →
    (∀ r ∈ recs, (frameBytes r.1 r.2).length < U32) →
    loadLoop (pre ++ recsBytes recs) (pre ++ recsBytes recs).length pre.length lastmsg acc =
      (lastNum lastmsg recs, .ok (acc ++ recsOffs pre.length recs))
  | [], pre, lastmsg, acc, _, _, _ => by
    rw [loadLoop]
    rw [dif_neg (by simp [recsBytes])]
    simp [recsBytes, recsOffs, lastNum]
  | (n, d) :: t, pre, lastmsg, acc, hchain, hbound, hfr => by
    simp only [List.map_cons, List.chain_cons] at hchain
    obtain ⟨hlt, hchain'⟩ := hchain
    obtain ⟨hn32, hd32⟩ := hbound (n, d) (by simp)
    have hfr32 : (recHeaderBytes n d.length).length + d.length < U32 := by
      have := hfr (n, d) (by simp)
      rw [frameBytes_len] at this
      exact this
    have hu32 : u32 ((recHeaderBytes n d.length).length + d.length)
        = (recHeaderBytes n d.length).length + d.length := Nat.mod_eq_of_lt hfr32
    have hfile : pre ++ recsBytes ((n, d) :: t)
        = pre ++ (recHeaderBytes n d.length ++ (d ++ recsBytes t)) := by
      simp [recsBytes, frameBytes]
    have hframe := readRecInfo_frame pre d (recsBytes t) n hn32 hd32
    have hflen : (pre ++ recsBytes ((n, d) :: t)).length
        = pre.length + (recHeaderBytes n d.length).length + d.length + (recsBytes t).length := by
      rw [hfile]
      simp
      omega
    rw [loadLoop]
    rw [dif_pos (by rw [hflen]; have := recHeaderBytes_len_ge n d.length; omega)]
    rw [show readRecInfo pre.length (pre ++ recsBytes ((n, d) :: t))
        = .ok ⟨pre.length, (recHeaderBytes n d.length).length, n, d.length, []⟩ by
      rw [hfile]; exact hframe]
    dsimp only
    rw [if_pos (by omega)]
    rw [if_neg (by omega)]
    simp only [hu32]
    rw [dif_pos (by have := recHeaderBytes_len_ge n d.length; omega)]
    have hpre' : pre ++ recsBytes ((n, d) :: t)
        = (pre ++ frameBytes n d) ++ recsBytes t := by
      simp [recsBytes]
    have hoff' : pre.length + ((recHeaderBytes n d.length).length + d.length)
        = (pre ++ frameBytes n d).length := by
      simp [frameBytes]
    rw [show (loadLoop (pre ++ recsBytes ((n, d) :: t)) (pre ++ recsBytes ((n, d) :: t)).length
          (pre.length + ((recHeaderBytes n d.length).length + d.length)) n
          (acc ++ [⟨n, pre.length⟩]))
        = loadLoop ((pre ++ frameBytes n d) ++ recsBytes t)
          ((pre ++ frameBytes n d) ++ recsBytes t).length
          (pre ++ frameBytes n d).length n (acc ++ [⟨n, pre.length⟩]) by
      rw [← hpre', ← hoff']]
    rw [loadLoop_frames t (pre ++ frameBytes n d) n
      (acc ++ [({ num := n, offset := pre.length } : MsgOff)]) hchain'
      (fun r hr => hbound r (by simp [hr])) (fun r hr => hfr r (by simp [hr]))]
    simp only [lastNum, List.map_cons, recsOffs]
    rw [getLastD_cons']
    simp

theorem recsBytes_head (recs : List (Nat × List Byte)) :
    recsBytes recs = [] ∨ (recsBytes recs).getD 0 0 = 10 := by
  cases recs with
  | nil => left; rfl
  | cons r t =>
    right
    obtain ⟨n, d⟩ := r
    simp [recsBytes, frameBytes, recHeaderBytes, recHeaderPfxB]

theorem loadLogFile_encode (lg : MsgLog) (start : Nat) (recs : List (Nat × List Byte))
    (hg : GoodRecs start recs)
    (hframe : ∀ r ∈ recs, (frameBytes r.1 r.2).length < U32) :
    loadLogFile lg (encodeLog start recs) =
      (mkLog start recs lg.getCount lg.putCount lg.achCount lg.errCount, none) := by
  obtain ⟨hs, hchain, hbound⟩ := hg
  unfold loadLogFile
  rw [show encodeLog start recs = dbHeaderBytes start ++ recsBytes recs from rfl]
  rw [loadDBHeader_encode start (recsBytes recs) hs (recsBytes_head recs)]
  dsimp only
  have hloop := loadLoop_frames recs (dbHeaderBytes start) start [] hchain hbound hframe
  rw [hloop]
  simp [mkLog, clearMsgLog, encodeLog, lastNum]

theorem scanFile_encode (start : Nat) (recs : List (Nat × List Byte))
    (hg : GoodRecs start recs)
    (hframe : ∀ r ∈ recs, (frameBytes r.1 r.2).length < U32) :
    scanFile (encodeLog start recs) = (mkLog start recs 0 0 0 0, none) := by
  unfold scanFile
  rw [loadLogFile_encode _ _ _ hg hframe]

theorem writeAt_append (f bs : List Byte) : writeAt f f.length bs = f ++ bs := by
  unfold writeAt
  simp

theorem put_nofail (data : List Byte) (lg : MsgLog) (f : List Byte)
    (hsz : lg.size = f.length) :
    put_ false false data lg (some f) f.length
      = (⟨u32 (lg.lastmsg + 1), none⟩,
         { lg with putCount := u32 (lg.putCount + 1),
                   msgOs := lg.msgOs ++ [⟨u32 (lg.lastmsg + 1), f.length⟩],
                   lastmsg := u32 (lg.lastmsg + 1),
                   size := lg.size + data.length +
                     (recHeaderBytes (u32 (lg.lastmsg + 1)) data.length).length },
         some (f ++ recHeaderBytes (u32 (lg.lastmsg + 1)) data.length ++ data)) := by
  unfold put_
  rw [if_neg (by simp [hsz])]
  unfold putWrite
  simp only [Bool.false_eq_true, if_false, Option.map_some']
  rw [writeAt_append]
  rw [show f.length + (recHeaderBytes (u32 (lg.lastmsg + 1)) data.length).length
      = (f ++ recHeaderBytes (u32 (lg.lastmsg + 1)) data.length).length by simp]
  rw [writeAt_append]

/-- C4: an accepted put returns `lastmsg + 1` and sets the log's `lastmsg` to
that number; a second accepted put on the resulting state returns
`lastmsg + 2`, so of two accepted puts the earlier returns the smaller
number. -/
theorem C4_put_assigns_next (data data2 : List Byte) (lg : MsgLog) (f : List Byte)
    (hsz : lg.size = f.length) (hw : lg.lastmsg + 2 < U32) :
    (put_ false false data lg (some f) f.length).1.err = none ∧
    (put_ false false data lg (some f) f.length).1.num = lg.lastmsg + 1 ∧
    (put_ false false data lg (some f) f.length).2.1.lastmsg = lg.lastmsg + 1 ∧
    (put_ false false data2 (put_ false false data lg (some f) f.length).2.1
        (put_ false false data lg (some f) f.length).2.2
        (((put_ false false data lg (some f) f.length).2.2.getD []).length)).1.err = none ∧
    (put_ false false data2 (put_ false false data lg (some f) f.length).2.1
        (put_ false false data lg (some f) f.length).2.2
        (((put_ false false data lg (some f) f.length).2.2.getD []).length)).1.num
      = lg.lastmsg + 2 ∧
    (put_ false false data lg (some f) f.length).1.num
      < (put_ false false data2 (put_ false false data lg (some f) f.length).2.1
          (put_ false false data lg (some f) f.length).2.2
          (((put_ false false data lg (some f) f.length).2.2.getD []).length)).1.num := by
  have hu1 : u32 (lg.lastmsg + 1) = lg.lastmsg + 1 := Nat.mod_eq_of_lt (by omega)
  rw [put_nofail data lg f hsz]
  dsimp only [Option.getD_some]
  rw [hu1]
  have hsz2 : ({ lg with
                 putCount := u32 (lg.putCount + 1),
                 msgOs := lg.msgOs ++ [⟨lg.lastmsg + 1, f.length⟩],
                 lastmsg := lg.lastmsg + 1,
                 size := lg.size + data.length +
                   (recHeaderBytes (lg.lastmsg + 1) data.length).length } : MsgLog).size
      = (f ++ recHeaderBytes (lg.lastmsg + 1) data.length ++ data).length := by
    simp
    omega
  rw [put_nofail data2 _ _ hsz2]
  dsimp only
  have hu2 : u32 (lg.lastmsg + 1 + 1) = lg.lastmsg + 2 := by
    show (lg.lastmsg + 1 + 1) % U32 = lg.lastmsg + 2
    rw [Nat.mod_eq_of_lt (by omega)]
  rw [hu2]
  exact ⟨rfl, rfl, rfl, rfl, rfl, by omega⟩

theorem C4_put_assigns_next_witness :
    ((⟨11, 0, [], 0, 0, 0, 0⟩ : MsgLog).size = (dbHeaderBytes 0).length ∧
     (⟨11, 0, [], 0, 0, 0, 0⟩ : MsgLog).lastmsg + 2 < U32) ∧
    ((put_ false false [104] ⟨11, 0, [], 0, 0, 0, 0⟩ (some (dbHeaderBytes 0))
        (dbHeaderBytes 0).length).1.err = none ∧
     (put_ false false [104] ⟨11, 0, [], 0, 0, 0, 0⟩ (some (dbHeaderBytes 0))
        (dbHeaderBytes 0).length).1.num = (⟨11, 0, [], 0, 0, 0, 0⟩ : MsgLog).lastmsg + 1 ∧
     (put_ false false [104] ⟨11, 0, [], 0, 0, 0, 0⟩ (some (dbHeaderBytes 0))
        (dbHeaderBytes 0).length).2.1.lastmsg
       = (⟨11, 0, [], 0, 0, 0, 0⟩ : MsgLog).lastmsg + 1 ∧
     (put_ false false [105] (put_ false false [104] ⟨11, 0, [], 0, 0, 0, 0⟩
          (some (dbHeaderBytes 0)) (dbHeaderBytes 0).length).2.1
        (put_ false false [104] ⟨11, 0, [], 0, 0, 0, 0⟩ (some (dbHeaderBytes 0))
          (dbHeaderBytes 0).length).2.2
        (((put_ false false [104] ⟨11, 0, [], 0, 0, 0, 0⟩ (some (dbHeaderBytes 0))
          (dbHeaderBytes 0).length).2.2.getD []).length)).1.err = none ∧
     (put_ false false [105] (put_ false false [104] ⟨11, 0, [], 0, 0, 0, 0⟩
          (some (dbHeaderBytes 0)) (dbHeaderBytes 0).length).2.1
        (put_ false false [104] ⟨11, 0, [], 0, 0, 0, 0⟩ (some (dbHeaderBytes 0))
          (dbHeaderBytes 0).length).2.2
        (((put_ false false [104] ⟨11, 0, [], 0, 0, 0, 0⟩ (some (dbHeaderBytes 0))
          (dbHeaderBytes 0).length).2.2.getD []).length)).1.num
       = (⟨11, 0, [], 0, 0, 0, 0⟩ : MsgLog).lastmsg + 2 ∧
     (put_ false false [104] ⟨11, 0, [], 0, 0, 0, 0⟩ (some (dbHeaderBytes 0))
        (dbHeaderBytes 0).length).1.num
       < (put_ false false [105] (put_ false false [104] ⟨11, 0, [], 0, 0, 0, 0⟩
            (some (dbHeaderBytes 0)) (dbHeaderBytes 0).length).2.1
          (put_ false false [104] ⟨11, 0, [], 0, 0, 0, 0⟩ (some (dbHeaderBytes 0))
            (dbHeaderBytes 0).length).2.2
          (((put_ false false [104] ⟨11, 0, [], 0, 0, 0, 0⟩ (some (dbHeaderBytes 0))
            (dbHeaderBytes 0).length).2.2.getD []).length)).1.num) :=
  ⟨⟨rfl, by norm_num [U32]⟩,
    C4_put_assigns_next [104] [105] ⟨11, 0, [], 0, 0, 0, 0⟩ (dbHeaderBytes 0) rfl
      (by norm_num [U32])⟩

theorem putWrite_fail (failHdr failData : Bool) (data : List Byte) (lg : MsgLog)
    (fs : Option (List Byte)) (off : Nat) (hfail : failHdr = true ∨ failData = true) :
    (putWrite failHdr failData data lg fs off).1.err = some "write failed" ∧
    (putWrite failHdr failData data lg fs off).2.1
      = { lg with errCount := u32 (lg.errCount + 1) } := by
  cases failHdr with
  | true => exact ⟨rfl, rfl⟩
  | false =>
    rcases hfail with h | h
    · simp at h
    · subst h
      exact ⟨rfl, rfl⟩

/-- C6 (amended): when a write fails during put, the error is returned and
the cached state is exactly the state left by the optional size-drift refresh
(`putRefresh`, the first half of `put_`), with only `errs` bumped: descriptor
list, `lastmsg`, cached size and the remaining counters keep their
post-refresh values. With no drift the refresh phase changes none of those
fields, so they then equal their pre-request values. The hypothesis rules
out only the early return where the drift re-scan itself fails, since there
the scan error is reported and no write is attempted. -/
theorem C6_put_write_error_amended (failHdr failData : Bool) (data : List Byte)
    (lg : MsgLog) (fs : Option (List Byte)) (staleSize : Nat)
    (hfail : failHdr = true ∨ failData = true)
    (hscan : lg.size = (match fs with | some f => f.length | none => staleSize) ∨
      (loadLogFile { lg with putCount := u32 (lg.putCount + 1) }
         (match fs with | none => dbHeaderBytes 0 | some f0 => f0)).2 = none) :
    (put_ failHdr failData data lg fs staleSize).1.err = some "write failed" ∧
    (put_ failHdr failData data lg fs staleSize).2.1.msgOs
      = (putRefresh lg fs staleSize).msgOs ∧
    (put_ failHdr failData data lg fs staleSize).2.1.lastmsg
      = (putRefresh lg fs staleSize).lastmsg ∧
    (put_ failHdr failData data lg fs staleSize).2.1.size
      = (putRefresh lg fs staleSize).size ∧
    (put_ failHdr failData data lg fs staleSize).2.1.getCount
      = (putRefresh lg fs staleSize).getCount ∧
    (put_ failHdr failData data lg fs staleSize).2.1.putCount
      = (putRefresh lg fs staleSize).putCount ∧
    (put_ failHdr failData data lg fs staleSize).2.1.achCount
      = (putRefresh lg fs staleSize).achCount ∧
    (put_ failHdr failData data lg fs staleSize).2.1.errCount
      = u32 ((putRefresh lg fs staleSize).errCount + 1) := by
  cases fs with
  | none =>
    unfold put_ putRefresh
    dsimp only
    dsimp only at hscan
    by_cases hd : lg.size ≠ staleSize
    · rw [if_pos hd, if_pos hd]
      rcases hscan with h | h
      · exact absurd h hd
      · rcases hres : loadLogFile { lg with putCount := u32 (lg.putCount + 1) }
            (dbHeaderBytes 0) with ⟨lg2, e2⟩
        rw [hres] at h
        dsimp only at h
        subst h
        dsimp only
        obtain ⟨h1, h2⟩ := putWrite_fail failHdr failData data lg2
          (some (dbHeaderBytes 0)) staleSize hfail
        rw [h1, h2]
        exact ⟨rfl, rfl, rfl, rfl, rfl, rfl, rfl, rfl⟩
    · rw [if_neg hd, if_neg hd]
      obtain ⟨h1, h2⟩ := putWrite_fail failHdr failData data
        { lg with putCount := u32 (lg.putCount + 1) } none staleSize hfail
      rw [h1, h2]
      exact ⟨rfl, rfl, rfl, rfl, rfl, rfl, rfl, rfl⟩
  | some f0 =>
    unfold put_ putRefresh
    dsimp only
    dsimp only at hscan
    by_cases hd : lg.size ≠ f0.length
    · rw [if_pos hd, if_pos hd]
      rcases hscan with h | h
      · exact absurd h hd
      · rcases hres : loadLogFile { lg with putCount := u32 (lg.putCount + 1) } f0
            with ⟨lg2, e2⟩
        rw [hres] at h
        dsimp only at h
        subst h
        dsimp only
        obtain ⟨h1, h2⟩ := putWrite_fail failHdr failData data lg2 (some f0)
          f0.length hfail
        rw [h1, h2]
        exact ⟨rfl, rfl, rfl, rfl, rfl, rfl, rfl, rfl⟩
    · rw [if_neg hd, if_neg hd]
      obtain ⟨h1, h2⟩ := putWrite_fail failHdr failData data
        { lg with putCount := u32 (lg.putCount + 1) } (some f0) f0.length hfail
      rw [h1, h2]
      exact ⟨rfl, rfl, rfl, rfl, rfl, rfl, rfl, rfl⟩

theorem C6_put_write_error_amended_witness :
    (((true : Bool) = true ∨ (false : Bool) = true) ∧
     ((⟨11, 0, [], 0, 0, 0, 0⟩ : MsgLog).size = (encodeLog 0 [(1, [104, 105])]).length ∨
      (loadLogFile { (⟨11, 0, [], 0, 0, 0, 0⟩ : MsgLog) with
          putCount := u32 ((⟨11, 0, [], 0, 0, 0, 0⟩ : MsgLog).putCount + 1) }
         (encodeLog 0 [(1, [104, 105])])).2 = none)) ∧
    ((put_ true false [120] ⟨11, 0, [], 0, 0, 0, 0⟩
        (some (encodeLog 0 [(1, [104, 105])])) 0).1.err = some "write failed" ∧
     (put_ true false [120] ⟨11, 0, [], 0, 0, 0, 0⟩
        (some (encodeLog 0 [(1, [104, 105])])) 0).2.1.msgOs
       = (putRefresh ⟨11, 0, [], 0, 0, 0, 0⟩ (some (encodeLog 0 [(1, [104, 105])])) 0).msgOs ∧
     (put_ true false [120] ⟨11, 0, [], 0, 0, 0, 0⟩
        (some (encodeLog 0 [(1, [104, 105])])) 0).2.1.lastmsg
       = (putRefresh ⟨11, 0, [], 0, 0, 0, 0⟩ (some (encodeLog 0 [(1, [104, 105])])) 0).lastmsg ∧
     (put_ true false [120] ⟨11, 0, [], 0, 0, 0, 0⟩
        (some (encodeLog 0 [(1, [104, 105])])) 0).2.1.size
       = (putRefresh ⟨11, 0, [], 0, 0, 0, 0⟩ (some (encodeLog 0 [(1, [104, 105])])) 0).size ∧
     (put_ true false [120] ⟨11, 0, [], 0, 0, 0, 0⟩
        (some (encodeLog 0 [(1, [104, 105])])) 0).2.1.getCount
       = (putRefresh ⟨11, 0, [], 0, 0, 0, 0⟩
           (some (encodeLog 0 [(1, [104, 105])])) 0).getCount ∧
     (put_ true false [120] ⟨11, 0, [], 0, 0, 0, 0⟩
        (some (encodeLog 0 [(1, [104, 105])])) 0).2.1.putCount
       = (putRefresh ⟨11, 0, [], 0, 0, 0, 0⟩
           (some (encodeLog 0 [(1, [104, 105])])) 0).putCount ∧
     (put_ true false [120] ⟨11, 0, [], 0, 0, 0, 0⟩
        (some (encodeLog 0 [(1, [104, 105])])) 0).2.1.achCount
       = (putRefresh ⟨11, 0, [], 0, 0, 0, 0⟩
           (some (encodeLog 0 [(1, [104, 105])])) 0).achCount ∧
     (put_ true false [120] ⟨11, 0, [], 0, 0, 0, 0⟩
        (some (encodeLog 0 [(1, [104, 105])])) 0).2.1.errCount
       = u32 ((putRefresh ⟨11, 0, [], 0, 0, 0, 0⟩
           (some (encodeLog 0 [(1, [104, 105])])) 0).errCount + 1)) := by
  have hg : GoodRecs 0 [(1, [104, 105])] :=
    ⟨by norm_num [U32], by simp, by decide⟩
  have hfr : ∀ r ∈ [((1 : Nat), ([104, 105] : List Byte))],
      (frameBytes r.1 r.2).length < U32 := by
    intro r hr
    simp only [List.mem_singleton] at hr
    subst hr
    exact frameBytes_small_lt 1 [104, 105] (by norm_num [U32]) (by norm_num [U32])
  have hscan : (⟨11, 0, [], 0, 0, 0, 0⟩ : MsgLog).size
        = (encodeLog 0 [(1, [104, 105])]).length ∨
      (loadLogFile { (⟨11, 0, [], 0, 0, 0, 0⟩ : MsgLog) with
          putCount := u32 ((⟨11, 0, [], 0, 0, 0, 0⟩ : MsgLog).putCount + 1) }
         (encodeLog 0 [(1, [104, 105])])).2 = none := by
    right
    rw [loadLogFile_encode _ 0 [(1, [104, 105])] hg hfr]
  exact ⟨⟨Or.inl rfl, hscan⟩,
    C6_put_write_error_amended true false [120] ⟨11, 0, [], 0, 0, 0, 0⟩
      (some (encodeLog 0 [(1, [104, 105])])) 0 (Or.inl rfl) hscan⟩

/-- C6: counterexample to the unqualified claim. With a stale cache (cached
size 11, no descriptors) over a file holding one record, a put whose header
write fails still returns the error, yet afterwards the cache holds the
descriptor of message 1 and `lastmsg = 1`, both changed from before the
request: the pre-write refresh rebuilt the cache from disk. -/
theorem C6_counterexample :
    ((put_ true false [120] ⟨11, 0, [], 0, 0, 0, 0⟩
        (some (encodeLog 0 [(1, [104, 105])]))
        (encodeLog 0 [(1, [104, 105])]).length).1.err).isSome = true ∧
    (put_ true false [120] ⟨11, 0, [], 0, 0, 0, 0⟩
        (some (encodeLog 0 [(1, [104, 105])]))
        (encodeLog 0 [(1, [104, 105])]).length).2.1.msgOs = [⟨1, 11⟩] ∧
    (put_ true false [120] ⟨11, 0, [], 0, 0, 0, 0⟩
        (some (encodeLog 0 [(1, [104, 105])]))
        (encodeLog 0 [(1, [104, 105])]).length).2.1.lastmsg = 1 ∧
    (⟨11, 0, [], 0, 0, 0, 0⟩ : MsgLog).msgOs = [] ∧
    (⟨11, 0, [], 0, 0, 0, 0⟩ : MsgLog).lastmsg = 0 := by
  have hg : GoodRecs 0 [(1, [104, 105])] :=
    ⟨by norm_num [U32], by simp, by decide⟩
  unfold put_
  rw [if_pos (by decide)]
  dsimp only
  rw [loadLogFile_encode _ 0 [(1, [104, 105])] hg (by
    intro r hr
    simp only [List.mem_singleton] at hr
    subst hr
    exact frameBytes_small_lt 1 [104, 105] (by norm_num [U32]) (by norm_num [U32]))]
  dsimp only
  unfold putWrite
  simp only [if_true]
  exact ⟨rfl, rfl, rfl, trivial, trivial⟩

/-- C5: the cache/disk coherence claim fails on the put path that tolerates a
missing file: `put_` captures the append offset from the stat of the still-open
(deleted) inode before the refresh recreates an 11-byte file, then writes at
that stale offset, punching a zero-filled hole. The put is accepted and cached
as message 1, but a re-scan of the file it produced fails and yields no
descriptors at all. -/
theorem C5_cache_disk_divergence :
    (put_ false false [104, 105] ⟨11, 0, [], 0, 0, 0, 0⟩ none 30).1.err = none ∧
    (put_ false false [104, 105] ⟨11, 0, [], 0, 0, 0, 0⟩ none 30).2.1.msgOs.map MsgOff.num
      = [1] ∧
    (put_ false false [104, 105] ⟨11, 0, [], 0, 0, 0, 0⟩ none 30).2.1.lastmsg = 1 ∧
    (put_ false false [104, 105] ⟨11, 0, [], 0, 0, 0, 0⟩ none 30).2.2 = some C5file ∧
    (scanFile C5file).2.isSome = true ∧
    (scanFile C5file).1.msgOs = [] := by
  have hg0 : GoodRecs 0 [] := ⟨by norm_num [U32], List.Chain.nil, by simp⟩
  have hd1 : Nat.digits 10 1 = [1] := by
    rw [Nat.digits_def' (by norm_num : (1 : ℕ) < 10) (by norm_num : (0 : ℕ) < 1)]
    norm_num
  have hd2 : Nat.digits 10 2 = [2] := by
    rw [Nat.digits_def' (by norm_num : (1 : ℕ) < 10) (by norm_num : (0 : ℕ) < 2)]
    norm_num
  have hput : put_ false false [104, 105] ⟨11, 0, [], 0, 0, 0, 0⟩ none 30
      = (⟨1, none⟩, ⟨26, 1, [⟨1, 30⟩], 0, 1, 0, 0⟩, some C5file) := by
    unfold put_
    dsimp only
    rw [if_pos (by decide)]
    rw [show (dbHeaderBytes 0 : List Byte) = encodeLog 0 [] from by simp [encodeLog, recsBytes]]
    rw [loadLogFile_encode _ 0 [] hg0 (by simp)]
    dsimp only
    simp [putWrite, mkLog, encodeLog, recsBytes, dbHeaderBytes, dbHeaderPfxB, lastNum, recsOffs,
      recHeaderBytes, recHeaderPfxB, decDigits, hd1, hd2, u32, U32, writeAt, C5file]
  have hdb : loadDBHeader C5file = .error "bad last message number" := by
    simp only [loadDBHeader]
    rw [if_neg (by decide)]
    rw [show min 32 C5file.length = 32 from by decide]
    have h30 : dbHdrEnd (C5file.take 32 ++ List.replicate (32 - 32) 0) 32 10 = 30 := by
      apply dbHdrEnd_stop _ _ 30 10 (by decide) (by decide)
      · intro j h1 h2
        interval_cases j <;> decide
      · exact Or.inr (by decide)
    rw [h30]
    rfl
  have hscan : scanFile C5file
      = (⟨C5file.length, 0, [], 0, 0, 0, 0⟩, some "bad last message number") := by
    simp only [scanFile, loadLogFile]
    rw [hdb]
    rfl
  rw [hput, hscan]
  exact ⟨rfl, rfl, rfl, rfl, rfl, rfl⟩

/-- C8: looking up an unregistered log name with `create = false` and no file
yields no actor and no error, and the HTTP get response rendered for the
resulting empty window has zero records, body header `KAF_MSGS|v1|0` and no
`X-Kaf-LastMsgSent` header. -/
theorem C8_unknown_log (registered : List String) (name : String)
    (h : name ∉ registered) :
    lookupOrCreate registered name false false = .noLog ∧
    mkGetResp [] = ⟨none, strB "KAF_MSGS|v1|" ++ decDigits 0⟩ := by
  constructor
  · rw [lookupOrCreate, if_neg h]
    rfl
  · simp [mkGetResp, kafFormatBytes]

theorem C8_unknown_log_witness :
    ("x" ∉ ([] : List String)) ∧
    (lookupOrCreate [] "x" false false = .noLog ∧
     mkGetResp [] = ⟨none, strB "KAF_MSGS|v1|" ++ decDigits 0⟩) :=
  ⟨by simp, C8_unknown_log [] "x" (by simp)⟩

/-- C9: a stats tick appends a snapshot exactly when some non-`_kaf` log has
activity; every entry of the appended JSON belongs to an active non-`_kaf`
log; each rendered entry uses the errors shape or the activity shape, so the
two-field `name`/`last` shape is never emitted; and the appended snapshot is
the JSON of exactly the filtered active logs. -/
theorem C9_stats_snapshot (all : List LogStats) (startB endB : List Byte) (statno : Nat) :
    (statsTick all startB endB statno = none ↔
      all.filter (fun s => s.name != "_kaf" && hasActivity s) = []) ∧
    (∀ s ∈ all.filter (fun s => s.name != "_kaf" && hasActivity s),
      s.name ≠ "_kaf" ∧ hasActivity s = true) ∧
    (∀ s ∈ all.filter (fun s => s.name != "_kaf" && hasActivity s),
      statsEntryB s = entryErrB s ∨ statsEntryB s = entryActB s) ∧
    (statsTick all startB endB statno = none ∨
      statsTick all startB endB statno
        = some (statsJSONBytes (all.filter (fun s => s.name != "_kaf" && hasActivity s))
            startB endB statno)) := by
  refine ⟨?_, ?_, ?_, ?_⟩
  · rw [statsTick]
    by_cases h : (all.filter (fun s => s.name != "_kaf" && hasActivity s)).length = 0
    · rw [if_pos h]
      rw [List.length_eq_zero] at h
      simp [h]
    · rw [if_neg h]
      constructor
      · intro hc
        exact absurd hc (by simp)
      · intro hc
        rw [hc] at h
        simp at h
  · intro s hs
    have := List.of_mem_filter hs
    simp only [Bool.and_eq_true, bne_iff_ne] at this
    exact this
  · intro s hs
    have hact : hasActivity s = true := by
      have := List.of_mem_filter hs
      simp only [Bool.and_eq_true] at this
      exact this.2
    rw [statsEntryB]
    by_cases he : 0 < s.errs
    · rw [if_pos he]
      left
      rfl
    · rw [if_neg he, if_pos hact]
      right
      rfl
  · rw [statsTick]
    by_cases h : (all.filter (fun s => s.name != "_kaf" && hasActivity s)).length = 0
    · rw [if_pos h]
      left
      rfl
    · rw [if_neg h]
      right
      rfl

/-- C10: processing a get leaves the descriptor list, `lastmsg`, cached size
and the put/archive counters unchanged (the embedding's `get_` takes the file
as a read-only argument, reflecting that the source's get path only calls
`ReadAt`); it increments `gets` by exactly one, increments `errs` by exactly
one when the read loop fails, and leaves `errs` unchanged on success. -/
theorem C10_get_frame (num : Nat) (lg : MsgLog) (file : List Byte)
    (h1 : lg.getCount + 1 < U32) (h2 : lg.errCount + 1 < U32) :
    (get_ num lg file).2.msgOs = lg.msgOs ∧
    (get_ num lg file).2.lastmsg = lg.lastmsg ∧
    (get_ num lg file).2.size = lg.size ∧
    (get_ num lg file).2.putCount = lg.putCount ∧
    (get_ num lg file).2.achCount = lg.achCount ∧
    (get_ num lg file).2.getCount = lg.getCount + 1 ∧
    (∀ msgs, (get_ num lg file).1 = .ok msgs →
      (get_ num lg file).2.errCount = lg.errCount) ∧
    (∀ e, (get_ num lg file).1 = .error e →
      (get_ num lg file).2.errCount = lg.errCount + 1) := by
  unfold get_
  dsimp only
  cases hres : getLoop file lg.msgOs lg.msgOs.length (findMsgNdx lg.msgOs num) 0 0 [] with
  | error e =>
    refine ⟨rfl, rfl, rfl, rfl, rfl, Nat.mod_eq_of_lt h1, ?_, ?_⟩
    · intro msgs hc
      exact absurd hc (by simp)
    · intro e' hc
      exact Nat.mod_eq_of_lt h2
  | ok msgs =>
    refine ⟨rfl, rfl, rfl, rfl, rfl, Nat.mod_eq_of_lt h1, ?_, ?_⟩
    · intro msgs' hc
      rfl
    · intro e hc
      exact absurd hc (by simp)

theorem C10_get_frame_witness :
    ((⟨11, 0, [], 0, 0, 0, 0⟩ : MsgLog).getCount + 1 < U32 ∧
     (⟨11, 0, [], 0, 0, 0, 0⟩ : MsgLog).errCount + 1 < U32) ∧
    ((get_ 1 ⟨11, 0, [], 0, 0, 0, 0⟩ []).2.msgOs = (⟨11, 0, [], 0, 0, 0, 0⟩ : MsgLog).msgOs ∧
     (get_ 1 ⟨11, 0, [], 0, 0, 0, 0⟩ []).2.lastmsg
       = (⟨11, 0, [], 0, 0, 0, 0⟩ : MsgLog).lastmsg ∧
     (get_ 1 ⟨11, 0, [], 0, 0, 0, 0⟩ []).2.size = (⟨11, 0, [], 0, 0, 0, 0⟩ : MsgLog).size ∧
     (get_ 1 ⟨11, 0, [], 0, 0, 0, 0⟩ []).2.putCount
       = (⟨11, 0, [], 0, 0, 0, 0⟩ : MsgLog).putCount ∧
     (get_ 1 ⟨11, 0, [], 0, 0, 0, 0⟩ []).2.achCount
       = (⟨11, 0, [], 0, 0, 0, 0⟩ : MsgLog).achCount ∧
     (get_ 1 ⟨11, 0, [], 0, 0, 0, 0⟩ []).2.getCount
       = (⟨11, 0, [], 0, 0, 0, 0⟩ : MsgLog).getCount + 1 ∧
     (∀ msgs, (get_ 1 ⟨11, 0, [], 0, 0, 0, 0⟩ []).1 = .ok msgs →
       (get_ 1 ⟨11, 0, [], 0, 0, 0, 0⟩ []).2.errCount
         = (⟨11, 0, [], 0, 0, 0, 0⟩ : MsgLog).errCount) ∧
     (∀ e, (get_ 1 ⟨11, 0, [], 0, 0, 0, 0⟩ []).1 = .error e →
       (get_ 1 ⟨11, 0, [], 0, 0, 0, 0⟩ []).2.errCount
         = (⟨11, 0, [], 0, 0, 0, 0⟩ : MsgLog).errCount + 1)) :=
  ⟨⟨by norm_num [U32], by norm_num [U32]⟩,
    C10_get_frame 1 ⟨11, 0, [], 0, 0, 0, 0⟩ [] (by norm_num [U32]) (by norm_num [U32])⟩
